import Mathlib

/-!
Shallow embedding of the SolverSpace authentication core
(`solver_space/utils/validators.py` and `solver_space/models/user.py`).

Modelling conventions:
* Python `str` is Lean `String` (a list of Unicode code points, so `len`
  is `String.length`).
* Character classification (`islower`, `isupper`, `isdigit`, `isalnum`,
  `isalpha`, `lower`) is embedded by its ASCII restriction; every
  concrete input appearing in the claims is ASCII, and the validator's
  regex confines the characters reaching the case-sensitive checks to
  ASCII word characters, where the restriction is exact.
* `unicodedata.normalize("NFKC", s)` is a Python-library call, so the
  definitions are parametrised by an arbitrary normalization function
  `nfkc : String → String`; `nfkcAscii` (the identity) is its value on
  ASCII-only strings, used for concrete evaluations.
* Calls to the external Supabase backend are modelled as oracle
  outcomes: each handler takes the `Except`-valued result of every
  backend call it may perform, and a Python exception raised by a call
  is the `Except.error` case.
-/

namespace SolverSpace

/-- The character class `[a-zA-Z]` of the validator's regex. -/
def isAsciiLetter (c : Char) : Bool :=
  ('a' ≤ c && c ≤ 'z') || ('A' ≤ c && c ≤ 'Z')

/-- The character class `[0-9]`. -/
def isAsciiDigit (c : Char) : Bool :=
  '0' ≤ c && c ≤ '9'

/-- The character class `[a-zA-Z0-9_]` used by the regex and by `re.sub` in `sanitize`. -/
def isWordChar (c : Char) : Bool :=
  isAsciiLetter c || isAsciiDigit c || c == '_'

/-- Python `c.islower()`, ASCII restriction. -/
def pyIsLower (c : Char) : Bool :=
  'a' ≤ c && c ≤ 'z'

/-- Python `c.isupper()`, ASCII restriction. -/
def pyIsUpper (c : Char) : Bool :=
  'A' ≤ c && c ≤ 'Z'

/-- Python `c.isdigit()`, ASCII restriction. -/
def pyIsDigit (c : Char) : Bool :=
  isAsciiDigit c

/-- Python `c.isalnum()`, ASCII restriction. -/
def pyIsAlnum (c : Char) : Bool :=
  isAsciiLetter c || isAsciiDigit c

/-- Python `c.isalpha()`, ASCII restriction. -/
def pyIsAlpha (c : Char) : Bool :=
  isAsciiLetter c

/-- Python `str.lower` on one character, ASCII restriction. -/
def pyToLower (c : Char) : Char :=
  if pyIsUpper c then Char.ofNat (c.toNat + 32) else c

/-- Python `str.lower`, ASCII restriction. -/
def pyLowerStr (s : String) : String :=
  String.mk (s.data.map pyToLower)

/-- Python `needle in hay` on strings (contiguous substring). -/
def listInfix (needle : List Char) : List Char → Bool
  | [] => needle.isEmpty
  | c :: rest => needle.isPrefixOf (c :: rest) || listInfix needle rest

/-- Python `needle in hay` lifted to `String`. -/
def pyContains (hay needle : String) : Bool :=
  listInfix needle.data hay.data

/-- `unicodedata.normalize("NFKC", ·)` restricted to ASCII strings, where
NFKC normalization is the identity.  Used to evaluate the embedding on
the (all-ASCII) concrete inputs of the claims. -/
def nfkcAscii : String → String := id

/-! ### UsernameValidator (`utils/validators.py`) -/

/-- `UsernameValidator.ERROR_LENGTH`. -/
def ERROR_LENGTH : String := "Username must be between 3-30 characters"

/-- `UsernameValidator.ERROR_FORMAT`. -/
def ERROR_FORMAT : String :=
  "Username must start with a letter and contain only letters, numbers, and underscores"

/-- `UsernameValidator.ERROR_RESERVED`. -/
def ERROR_RESERVED : String := "This username is reserved"

/-- `UsernameValidator.reserved_words`. -/
def reservedWords : List String :=
  ["admin", "administrator", "root", "sudo",
   "www", "api", "mail", "smtp", "support",
   "help", "info", "contact", "login", "logout",
   "signin", "signup", "register", "password"]

/-- An anchored match of `[a-zA-Z][a-zA-Z0-9_]{2,29}` against the whole list. -/
def matchesCore : List Char → Bool
  | [] => false
  | c :: rest =>
    isAsciiLetter c && rest.all isWordChar &&
      decide (2 ≤ rest.length) && decide (rest.length ≤ 29)

/-- Python `re.match(r'^[a-zA-Z][a-zA-Z0-9_]{2,29}$', s)`: the `$` anchor
also matches just before one final newline, so the pattern accepts a
full match of the string with at most one trailing newline removed. -/
def reMatchUsername (s : String) : Bool :=
  let cs := s.data
  let core := if cs.getLast? == some '\n' then cs.dropLast else cs
  matchesCore core

/-- `UsernameValidator.validate`, parametrised by the NFKC normalization. -/
def validate (nfkc : String → String) (username : String) : Bool × String :=
  if username = "" ∨ username.length < 3 ∨ username.length > 30 then
    (false, ERROR_LENGTH)
  else
    let normalized := nfkc username
    if !reMatchUsername normalized then
      (false, ERROR_FORMAT)
    else if reservedWords.contains (pyLowerStr normalized) then
      (false, ERROR_RESERVED)
    else
      (true, "")

/-- The replacement `re.sub(r'[^a-zA-Z0-9_]', '_', ·)` performs on one character. -/
def toSafeChar (c : Char) : Char :=
  if isWordChar c then c else '_'

/-- `UsernameValidator.sanitize`, parametrised by the NFKC normalization.
The source indexes `username[0]` after the substitution; `headD` supplies
a non-letter default for the empty case, which is unreachable for the
real NFKC since it never maps a nonempty string to an empty one. -/
def sanitize (nfkc : String → String) (username : String) : String :=
  if username = "" then "u"
  else
    let n := nfkc username
    let replaced := n.data.map toSafeChar
    let prefixed := if !pyIsAlpha (replaced.headD '_') then 'u' :: replaced else replaced
    String.mk (prefixed.take 30)

/-! ### Password checks and validation results (`models/user.py`) -/

/-- One entry of the list returned by `_get_password_checks`. -/
structure ValidationCheck where
  passed : Bool
  message : String
deriving Repr, DecidableEq

/-- The `ValidationState` dict: `{"valid": ..., "message": ...}`. -/
structure ValidationState where
  valid : Bool
  message : String
deriving Repr, DecidableEq

/-- The `PasswordValidationState` dict. -/
structure PasswordValidationState where
  valid : Bool
  message : String
  checks : List ValidationCheck
  show_requirements : Bool
deriving Repr, DecidableEq

/-- `AuthState._get_password_checks`. -/
def getPasswordChecks (password : String) : List ValidationCheck :=
  [⟨password.data.any pyIsLower, "One lowercase letter"⟩,
   ⟨password.data.any pyIsUpper, "One uppercase letter"⟩,
   ⟨password.data.any pyIsDigit, "One number"⟩,
   ⟨password.data.any (fun c => !pyIsAlnum c), "One special character"⟩,
   ⟨decide (8 ≤ password.length), "Minimum 8 characters"⟩]

/-- The uncached computation performed by `_validate_username`. -/
def computeUsernameValidation (nfkc : String → String) (username : String) : ValidationState :=
  let r := validate nfkc username
  ⟨r.1, r.2⟩

/-- The uncached computation performed by `_validate_password`. -/
def computePasswordValidation (password : String) : PasswordValidationState :=
  let checks := getPasswordChecks password
  let all_passed := checks.all (·.passed)
  { valid := all_passed
    message := if all_passed then "" else "Password requirements not met"
    checks := checks
    show_requirements := decide (0 < password.length) }

/-! ### The validation caches

Python dicts preserve insertion order and `d.pop(next(iter(d)))` removes
the oldest-inserted entry, so each cache is an association list with new
entries appended at the tail and eviction dropping the head. -/

/-- The two validation caches of `AuthState`. -/
structure CacheState where
  usernameCache : List (String × ValidationState)
  passwordCache : List (String × PasswordValidationState)
deriving Repr, DecidableEq

/-- Both caches start empty. -/
def initCaches : CacheState := ⟨[], []⟩

/-- `AuthState._validate_username`: serve from cache when present, else
compute, and cache the result when `len(username) > 2`, evicting the
oldest entry when the cache exceeds 1000 entries. -/
def validateUsername (nfkc : String → String) (s : CacheState) (username : String) :
    ValidationState × CacheState :=
  match s.usernameCache.lookup username with
  | some r => (r, s)
  | none =>
    let result := computeUsernameValidation nfkc username
    if username.length > 2 then
      let cache := s.usernameCache ++ [(username, result)]
      let cache := if cache.length > 1000 then cache.tail else cache
      (result, { s with usernameCache := cache })
    else
      (result, s)

/-- `AuthState._validate_password`: serve from cache when present, else
compute, and cache the result when `len(password) > 4`, evicting the
oldest entry when the cache exceeds 1000 entries. -/
def validatePassword (s : CacheState) (password : String) :
    PasswordValidationState × CacheState :=
  match s.passwordCache.lookup password with
  | some r => (r, s)
  | none =>
    let result := computePasswordValidation password
    if password.length > 4 then
      let cache := s.passwordCache ++ [(password, result)]
      let cache := if cache.length > 1000 then cache.tail else cache
      (result, { s with passwordCache := cache })
    else
      (result, s)

/-- One cache-touching validation call (`nfkc` fixed per session). -/
inductive ValidationOp where
  | username (u : String)
  | password (p : String)
deriving Repr, DecidableEq

/-- State transition of one validation call. -/
def runOp (nfkc : String → String) (s : CacheState) : ValidationOp → CacheState
  | .username u => (validateUsername nfkc s u).2
  | .password p => (validatePassword s p).2

/-- Run a sequence of validation calls. -/
def runOps (nfkc : String → String) (s : CacheState) (ops : List ValidationOp) : CacheState :=
  ops.foldl (runOp nfkc) s

/-! ### The session state machine (`models/user.py`) -/

/-- The `User` pydantic model (`created_at` abstracted to a timestamp). -/
structure User where
  id : String
  email : String
  username : Option String
  created_at : Nat
  last_login : Option Nat
deriving Repr, DecidableEq

/-- The fields of `AuthState` read or written by the login, signup and
logout handlers (the form-field and cache state is independent of them). -/
structure AuthState where
  user : Option User
  processing : Bool
  error : Option String
deriving Repr, DecidableEq

/-- A Python exception raised by a backend call: either
`gotrue.errors.AuthWeakPasswordError` or any other `Exception`; the
payload is the requirement message, which is also `str(e)`. -/
inductive AuthExc where
  | weakPassword (msg : String)
  | other (msg : String)
deriving Repr, DecidableEq

/-- Python `str(e)` for a backend exception. -/
def AuthExc.toMsg : AuthExc → String
  | .weakPassword m => m
  | .other m => m

/-- Python `error_message.split(". ")`: cut the list at every
(non-overlapping, leftmost-first) occurrence of `". "`. -/
def splitDotSpace : List Char → List (List Char)
  | [] => [[]]
  | '.' :: ' ' :: rest => [] :: splitDotSpace rest
  | c :: rest =>
    match splitDotSpace rest with
    | [] => [[c]]
    | g :: gs => (c :: g) :: gs

/-- `AuthState._format_password_requirements`. -/
def formatPasswordRequirements (error_message : String) : String :=
  let requirements := (splitDotSpace error_message.data).map String.mk
  "Password requirements:\n" ++
    String.intercalate "\n" (requirements.map (fun req => "• " ++ req))

/-- Python `email.split('@')[0]`: the characters before the first `@`. -/
def emailLocalPart (email : String) : String :=
  String.mk (email.data.takeWhile (fun c => c != '@'))

/-- The backend record returned for a created or signed-in identity. -/
structure UserData where
  id : String
  email : String
  created_at : Nat
deriving Repr, DecidableEq

/-- Oracle outcomes of the backend calls `_login` may perform:
`sign_in_with_password` (which raises, or returns a response whose
`user` may be absent) and the profile `select ... single().execute()`
(which raises, or returns a response whose `data` row may be absent and
whose `username` field may be null).  The profile `insert` performed
when the row is absent is also wrapped in the same inner handler and
its outcome cannot affect the resulting state. -/
structure LoginBackend where
  signIn : Except String (Option UserData)
  profileFetch : Except String (Option (Option String))

/-- `AuthState._login`.  Sets `processing`/`error` on entry, matches on
the oracle outcomes exactly as the source's try/except blocks do, and
the `finally` clause forces `processing := false` on every path. -/
def login (b : LoginBackend) (email : String) (s : AuthState) : AuthState :=
  let s0 : AuthState := { s with processing := true, error := none }
  match b.signIn with
  | .error _ =>
    { s0 with error := some "Invalid email or password", processing := false }
  | .ok none =>
    { s0 with error := some "Invalid email or password", processing := false }
  | .ok (some ud) =>
    let uname : Option String :=
      match b.profileFetch with
      | .ok (some unameField) => unameField
      | .ok none => some (emailLocalPart email)
      | .error _ => some (emailLocalPart email)
    { s0 with
        user := some ⟨ud.id, ud.email, uname, ud.created_at, none⟩
        processing := false }

/-- `AuthState.logout`: `sign_out`, then clear `user`; the `except`
branch only records the exception message (the clearing statement is
inside the `try`, so it does not run when `sign_out` raises). -/
def logout (signOut : Except String Unit) (s : AuthState) : AuthState :=
  match signOut with
  | .ok _ => { s with user := none }
  | .error m => { s with error := some m }

/-- The backend calls `_signup` can issue, in source order (the local
username validation is included as the leading non-backend step). -/
inductive SignupStep where
  | localValidate
  | profilesQuery
  | signUp
  | profilesInsert
  | autoSignIn
deriving Repr, DecidableEq

/-- Oracle outcomes of the calls `_signup` may perform: the username
availability query, `auth.sign_up`, the profile `insert` (caught by its
own inner handler, so its outcome never affects the state), and the
automatic `sign_in_with_password`. -/
structure SignupBackend where
  availability : Except AuthExc (List String)
  signUpResult : Except AuthExc (Option UserData)
  profileInsert : Except AuthExc (Option Unit)
  autoSignIn : Except AuthExc Unit

/-- Result of a `_signup` run: the state, the sequence of steps taken,
and the exception the call re-raises after its `finally` clause when one
escapes the outer `except AuthWeakPasswordError` handler. -/
structure SignupResult where
  state : AuthState
  steps : List SignupStep
  raised : Option AuthExc

/-- `AuthState._signup`.  The `sign_up` call sits inside an inner
`try/except Exception` block, so every exception it raises — including
`AuthWeakPasswordError` — is handled by the inner string-matching
handler; the outer `except AuthWeakPasswordError` can only catch
exceptions raised outside the inner blocks (the availability query).
The `finally` clause forces `processing := false` on every path. -/
def signup (nfkc : String → String) (b : SignupBackend) (username : String)
    (s : AuthState) : SignupResult :=
  let s0 : AuthState := { s with processing := true, error := none }
  let r := validate nfkc username
  if !r.1 then
    { state := { s0 with processing := false, error := some r.2 }
      steps := [.localValidate], raised := none }
  else
    match b.availability with
    | .error (.weakPassword m) =>
      { state :=
          { s0 with
              processing := false
              error := some (formatPasswordRequirements m) }
        steps := [.localValidate, .profilesQuery], raised := none }
    | .error (.other m) =>
      { state := { s0 with processing := false }
        steps := [.localValidate, .profilesQuery], raised := some (.other m) }
    | .ok rows =>
      if rows = [] then
        match b.signUpResult with
        | .error e =>
          let error_str := e.toMsg
          let msg :=
            if pyContains (pyLowerStr error_str) "invalid format" then
              "Please enter a valid email address"
            else if pyContains error_str "User already registered" then
              "Email already registered"
            else
              "An error occurred. Please try again."
          { state := { s0 with processing := false, error := some msg }
            steps := [.localValidate, .profilesQuery, .signUp], raised := none }
        | .ok none =>
          { state := { s0 with processing := false, error := some "Signup failed" }
            steps := [.localValidate, .profilesQuery, .signUp], raised := none }
        | .ok (some ud) =>
          let sanitized := sanitize nfkc username
          match b.autoSignIn with
          | .ok _ =>
            { state :=
                { s0 with
                    processing := false
                    user := some ⟨ud.id, ud.email, some sanitized, ud.created_at, none⟩ }
              steps := [.localValidate, .profilesQuery, .signUp, .profilesInsert, .autoSignIn]
              raised := none }
          | .error _ =>
            { state := { s0 with processing := false }
              steps := [.localValidate, .profilesQuery, .signUp, .profilesInsert, .autoSignIn]
              raised := none }
      else
        { state := { s0 with processing := false, error := some "Username already taken" }
          steps := [.localValidate, .profilesQuery], raised := none }

/-- The source order of the signup steps: every run performs an initial
segment of this sequence. -/
def signupStepOrder : List SignupStep :=
  [.localValidate, .profilesQuery, .signUp, .profilesInsert, .autoSignIn]

/-! ### C4: validation rule order -/

/-- The username-validation rules exactly as the specification phrases
them: length window first, then the anchored format pattern on the
NFKC-normalized string, then the case-insensitive reserved-word check,
first failure winning. -/
def specValidate (nfkc : String → String) (username : String) : Bool × String :=
  if username.length < 3 ∨ username.length > 30 then
    (false, ERROR_LENGTH)
  else if !reMatchUsername (nfkc username) then
    (false, ERROR_FORMAT)
  else if reservedWords.contains (pyLowerStr (nfkc username)) then
    (false, ERROR_RESERVED)
  else
    (true, "")

/-- C4: UsernameValidator.validate checks its rules in a fixed order with
first failure winning: length < 3 or > 30 yields the length error, then a
failed match of the NFKC-normalized string against the username pattern
yields the format error, then membership of the lowercased normalized
string in the reserved set yields the reserved error, and otherwise the
result is valid with an empty message. -/
theorem validate_matches_spec (nfkc : String → String) (username : String) :
    validate nfkc username = specValidate nfkc username := by
  unfold validate specValidate
  by_cases h : username = ""
  · subst h
    simp
  · simp [h]

/-! ### C9: the five password checks -/

/-- C9: _get_password_checks returns exactly five checks, in order:
has-lowercase, has-uppercase, has-digit, has-a-non-alphanumeric
character, and length at least 8; on "Abc123!@" all five pass and on
"abc" only the lowercase check passes. -/
theorem password_checks_spec :
    (∀ password : String,
        (getPasswordChecks password).length = 5 ∧
        (getPasswordChecks password).map (·.passed) =
          [decide (∃ c ∈ password.data, pyIsLower c = true),
           decide (∃ c ∈ password.data, pyIsUpper c = true),
           decide (∃ c ∈ password.data, pyIsDigit c = true),
           decide (∃ c ∈ password.data, pyIsAlnum c = false),
           decide (8 ≤ password.length)]) ∧
    (getPasswordChecks "Abc123!@").all (·.passed) = true ∧
    (getPasswordChecks "abc").map (·.passed) = [true, false, false, false, false] := by
  have h : ∀ (l : List Char) (q : Char → Bool), l.any q = decide (∃ c ∈ l, q c = true) := by
    intro l q
    rw [Bool.eq_iff_iff]
    simp [List.any_eq_true]
  have h2 : ∀ (l : List Char) (q : Char → Bool),
      l.any (fun c => !q c) = decide (∃ c ∈ l, q c = false) := by
    intro l q
    rw [Bool.eq_iff_iff]
    simp [List.any_eq_true, Bool.not_eq_true']
  refine ⟨fun password => ⟨rfl, ?_⟩, by decide, by decide⟩
  simp only [getPasswordChecks, List.map]
  rw [h _ pyIsLower, h _ pyIsUpper, h _ pyIsDigit, h2 _ pyIsAlnum]

/-! ### C2: logout -/

/-- A sample authenticated user for concrete evaluations. -/
def sampleUser : User := ⟨"id-1", "alice@example.com", some "alice", 0, none⟩

/-- C2 counterexample: when the backend sign-out call throws, logout
leaves the previously authenticated user in place, so `user` is not
absent after the call returns. -/
theorem logout_exception_keeps_user :
    (logout (Except.error "Network unreachable")
        ⟨some sampleUser, false, none⟩).user ≠ none := by
  decide

/-- C2 amended: logout clears `user` when the backend sign-out call
succeeds; when the call throws, `user` is left unchanged and `error` is
set to the exception's message. -/
theorem logout_behavior (s : AuthState) :
    (logout (Except.ok ()) s).user = none ∧
    ∀ m : String,
      (logout (Except.error m) s).user = s.user ∧
      (logout (Except.error m) s).error = some m :=
  ⟨rfl, fun _ => ⟨rfl, rfl⟩⟩

/-! ### C7: login failure leaves a clean unauthenticated state -/

/-- C7: _login always ends with `processing` false, and when the backend
sign-in fails (an exception, or a response without user data) from an
unauthenticated session it ends with `user` absent and `error` equal to
"Invalid email or password". -/
theorem login_failure_state (b : LoginBackend) (email : String) (s : AuthState) :
    (login b email s).processing = false ∧
    (s.user = none →
      ((∃ m, b.signIn = Except.error m) ∨ b.signIn = Except.ok none) →
      (login b email s).user = none ∧
      (login b email s).error = some "Invalid email or password" ∧
      (login b email s).processing = false) := by
  constructor
  · cases hb : b.signIn with
    | error m => simp [login, hb]
    | ok v =>
      cases v with
      | none => simp [login, hb]
      | some ud => simp [login, hb]
  · intro hu hf
    cases hb : b.signIn with
    | error m =>
      refine ⟨?_, ?_, ?_⟩ <;> simp [login, hb, hu]
    | ok v =>
      cases v with
      | none => refine ⟨?_, ?_, ?_⟩ <;> simp [login, hb, hu]
      | some ud =>
        rw [hb] at hf
        rcases hf with ⟨m, hm⟩ | hm <;> simp at hm

/-- Witness for C7: a concrete rejected sign-in from an idle session. -/
theorem login_failure_state_witness :
    (⟨none, false, none⟩ : AuthState).user = none ∧
    ((∃ m, (Except.error "boom" : Except String (Option UserData)) = Except.error m) ∨
      (Except.error "boom" : Except String (Option UserData)) = Except.ok none) ∧
    ((login ⟨Except.error "boom", Except.ok none⟩ "a@b.co" ⟨none, false, none⟩).user = none ∧
      (login ⟨Except.error "boom", Except.ok none⟩ "a@b.co"
          ⟨none, false, none⟩).error = some "Invalid email or password" ∧
      (login ⟨Except.error "boom", Except.ok none⟩ "a@b.co"
          ⟨none, false, none⟩).processing = false) :=
  ⟨rfl, Or.inl ⟨"boom", rfl⟩,
    (login_failure_state ⟨Except.error "boom", Except.ok none⟩ "a@b.co"
        ⟨none, false, none⟩).2 rfl (Or.inl ⟨"boom", rfl⟩)⟩

/-! ### C5: sanitize is idempotent -/

theorem isWordChar_toSafeChar (c : Char) : isWordChar (toSafeChar c) = true := by
  unfold toSafeChar
  by_cases h : isWordChar c = true
  · simp [h]
  · simp [h]
    decide

theorem all_isWordChar_map_toSafeChar (l : List Char) :
    (l.map toSafeChar).all isWordChar = true := by
  induction l with
  | nil => rfl
  | cons c t ih => simp [isWordChar_toSafeChar, ih]

theorem map_toSafeChar_of_all {l : List Char} (h : l.all isWordChar = true) :
    l.map toSafeChar = l := by
  induction l with
  | nil => rfl
  | cons c t ih =>
    simp only [List.all_cons, Bool.and_eq_true] at h
    simp [toSafeChar, h.1, ih h.2]

theorem all_take {p : Char → Bool} {l : List Char} (n : Nat) (h : l.all p = true) :
    (l.take n).all p = true := by
  rw [List.all_eq_true] at h ⊢
  exact fun x hx => h x (List.take_subset n l hx)

/-- The shape every sanitize output has: nonempty, only word characters,
a letter first, and at most 30 characters. -/
theorem sanitize_output_spec (nfkc : String → String) (x : String) :
    sanitize nfkc x ≠ "" ∧
    (sanitize nfkc x).data.all isWordChar = true ∧
    pyIsAlpha ((sanitize nfkc x).data.headD '_') = true ∧
    (sanitize nfkc x).data.length ≤ 30 := by
  by_cases hx : x = ""
  · subst hx
    have hu : sanitize nfkc "" = "u" := by simp [sanitize]
    rw [hu]
    refine ⟨by decide, by decide, by decide, by decide⟩
  · simp only [sanitize, if_neg hx]
    set replaced := (nfkc x).data.map toSafeChar with hrep
    have hallrep : replaced.all isWordChar = true := all_isWordChar_map_toSafeChar _
    by_cases halpha : (!pyIsAlpha (replaced.headD '_')) = true
    · simp only [if_pos halpha]
      refine ⟨?_, ?_, ?_, ?_⟩
      · intro hcon
        rw [String.ext_iff] at hcon
        simp [List.take_succ_cons] at hcon
      · exact all_take _ (by simp [hallrep]; decide)
      · simp [List.take_succ_cons]
        decide
      · simp [List.length_take]
    · simp only [if_neg halpha]
      have halpha2 : pyIsAlpha (replaced.headD '_') = true := by
        cases h : pyIsAlpha (replaced.headD '_')
        · rw [h] at halpha
          simp at halpha
        · rfl
      obtain ⟨c, t, hct⟩ : ∃ c t, replaced = c :: t := by
        cases hrc : replaced with
        | nil =>
          rw [hrc] at halpha2
          simp only [List.headD_nil] at halpha2
          exact absurd halpha2 (by decide)
        | cons c t => exact ⟨c, t, rfl⟩
      rw [hct]
      rw [hct] at halpha2 hallrep
      simp only [List.headD_cons] at halpha2
      refine ⟨?_, ?_, ?_, ?_⟩
      · intro hcon
        rw [String.ext_iff] at hcon
        simp [List.take_succ_cons] at hcon
      · exact all_take _ hallrep
      · simpa [List.take_succ_cons] using halpha2
      · simp [List.length_take]

/-- C5: sanitize is idempotent (for any normalization that fixes nonempty
words over the sanitized alphabet, as NFKC does), and on the concrete
examples it maps "User@Name" to "User_Name", "" to "u" and "123user" to
"u123user". -/
theorem sanitize_idempotent :
    (∀ nfkc : String → String,
        (∀ t : String, t ≠ "" → t.data.all isWordChar = true → nfkc t = t) →
        ∀ x : String, sanitize nfkc (sanitize nfkc x) = sanitize nfkc x) ∧
    sanitize nfkcAscii "User@Name" = "User_Name" ∧
    sanitize nfkcAscii "" = "u" ∧
    sanitize nfkcAscii "123user" = "u123user" := by
  refine ⟨fun nfkc hn x => ?_, by decide, by decide, by decide⟩
  obtain ⟨hne, hall, hhead, hlen⟩ := sanitize_output_spec nfkc x
  set y := sanitize nfkc x with hy
  simp only [sanitize, if_neg hne]
  rw [hn y hne hall, map_toSafeChar_of_all hall, hhead]
  simp only [Bool.not_true, Bool.false_eq_true, if_false]
  rw [List.take_of_length_le hlen]

/-- Witness for C5 with the identity normalization, which fixes every
word-character string. -/
theorem sanitize_idempotent_witness :
    sanitize nfkcAscii (sanitize nfkcAscii "a b!") = sanitize nfkcAscii "a b!" :=
  sanitize_idempotent.1 nfkcAscii (fun _ _ _ => rfl) "a b!"

/-! ### Association-list cache lemmas -/

theorem lookup_append_self {α : Type} (u : String) (r : α) :
    ∀ l : List (String × α), l.lookup u = none → (l ++ [(u, r)]).lookup u = some r := by
  intro l
  induction l with
  | nil =>
    intro _
    simp [List.lookup]
  | cons kv t ih =>
    obtain ⟨k, v⟩ := kv
    intro h
    cases hk : (u == k) with
    | true =>
      simp only [List.lookup_cons, hk] at h
      cases h
    | false =>
      simp only [List.cons_append, List.lookup_cons, hk] at h ⊢
      exact ih h

theorem lookup_tail_none {α : Type} (u : String) (l : List (String × α))
    (h : l.lookup u = none) : l.tail.lookup u = none := by
  cases l with
  | nil => exact h
  | cons kv t =>
    obtain ⟨k, v⟩ := kv
    cases hk : (u == k) with
    | true => simp [List.lookup_cons, hk] at h
    | false =>
      simp only [List.lookup_cons, hk] at h
      simpa using h

theorem lookup_insert_cache {α : Type} (u : String) (r : α) (l : List (String × α))
    (h : l.lookup u = none) :
    ((if (l ++ [(u, r)]).length > 1000 then (l ++ [(u, r)]).tail
      else (l ++ [(u, r)])).lookup u) = some r := by
  by_cases hb : (l ++ [(u, r)]).length > 1000
  · simp only [if_pos hb]
    cases l with
    | nil => simp at hb
    | cons kv t =>
      exact lookup_append_self u r t (lookup_tail_none u (kv :: t) h)
  · simp only [if_neg hb]
    exact lookup_append_self u r l h

/-! ### C3: the caching thresholds -/

/-- C3 counterexample: a username of length exactly 3 ("abc") is cached
by _validate_username even though its length does not exceed 3, because
the source condition is `len(username) > 2`. -/
theorem username_cache_inserts_at_length_three :
    (((validateUsername nfkcAscii initCaches "abc").2.usernameCache.lookup "abc").isSome
      = true) ∧
    ¬(("abc" : String).length > 3) := by
  constructor
  · decide
  · decide

/-- C3 amended: on a cache miss, _validate_username caches its result
exactly when the username's length exceeds 2 (is at least 3), and
_validate_password caches exactly when the password's length exceeds 4
(is at least 5). -/
theorem cache_insert_threshold (nfkc : String → String) (s : CacheState) (u p : String)
    (hu : s.usernameCache.lookup u = none) (hp : s.passwordCache.lookup p = none) :
    (((validateUsername nfkc s u).2.usernameCache.lookup u).isSome = true ↔ u.length > 2) ∧
    (((validatePassword s p).2.passwordCache.lookup p).isSome = true ↔ p.length > 4) := by
  constructor
  · simp only [validateUsername, hu]
    by_cases hl : u.length > 2
    · simp only [if_pos hl]
      rw [lookup_insert_cache u _ _ hu]
      simp [hl]
    · simp only [if_neg hl]
      rw [hu]
      simp [hl]
  · simp only [validatePassword, hp]
    by_cases hl : p.length > 4
    · simp only [if_pos hl]
      rw [lookup_insert_cache p _ _ hp]
      simp [hl]
    · simp only [if_neg hl]
      rw [hp]
      simp [hl]

/-- Witness for C3 (amended) at the minimal cacheable lengths. -/
theorem cache_insert_threshold_witness :
    (initCaches.usernameCache.lookup "abc" = none) ∧
    (initCaches.passwordCache.lookup "abcde" = none) ∧
    ((((validateUsername nfkcAscii initCaches "abc").2.usernameCache.lookup "abc").isSome
        = true ↔ ("abc" : String).length > 2) ∧
      (((validatePassword initCaches "abcde").2.passwordCache.lookup "abcde").isSome
        = true ↔ ("abcde" : String).length > 4)) :=
  ⟨rfl, rfl, cache_insert_threshold nfkcAscii initCaches "abc" "abcde" rfl rfl⟩

/-! ### C6: the 1000-entry cache bound -/

theorem insert_cache_bound {α : Type} (l : List (String × α)) (x : String × α)
    (h : l.length ≤ 1000) :
    (if (l ++ [x]).length > 1000 then (l ++ [x]).tail else (l ++ [x])).length ≤ 1000 := by
  have hlen2 : (l ++ [x]).length = l.length + 1 := by simp
  by_cases hb : (l ++ [x]).length > 1000
  · rw [if_pos hb, List.length_tail]
    omega
  · rw [if_neg hb]
    omega

theorem validateUsername_cache_bound (nfkc : String → String) (s : CacheState) (u : String)
    (h : s.usernameCache.length ≤ 1000) :
    (validateUsername nfkc s u).2.usernameCache.length ≤ 1000 := by
  simp only [validateUsername]
  cases hl : s.usernameCache.lookup u with
  | some r =>
    simp only [hl]
    exact h
  | none =>
    simp only [hl]
    by_cases hlen : u.length > 2
    · simp only [if_pos hlen]
      exact insert_cache_bound _ _ h
    · simp only [if_neg hlen]
      exact h

theorem validatePassword_cache_bound (s : CacheState) (p : String)
    (h : s.passwordCache.length ≤ 1000) :
    (validatePassword s p).2.passwordCache.length ≤ 1000 := by
  simp only [validatePassword]
  cases hl : s.passwordCache.lookup p with
  | some r =>
    simp only [hl]
    exact h
  | none =>
    simp only [hl]
    by_cases hlen : p.length > 4
    · simp only [if_pos hlen]
      exact insert_cache_bound _ _ h
    · simp only [if_neg hlen]
      exact h

theorem validateUsername_passwordCache (nfkc : String → String) (s : CacheState) (u : String) :
    (validateUsername nfkc s u).2.passwordCache = s.passwordCache := by
  simp only [validateUsername]
  cases hl : s.usernameCache.lookup u with
  | some r => simp only [hl]
  | none =>
    simp only [hl]
    by_cases hlen : u.length > 2
    · simp only [if_pos hlen]
    · simp only [if_neg hlen]

theorem validatePassword_usernameCache (s : CacheState) (p : String) :
    (validatePassword s p).2.usernameCache = s.usernameCache := by
  simp only [validatePassword]
  cases hl : s.passwordCache.lookup p with
  | some r => simp only [hl]
  | none =>
    simp only [hl]
    by_cases hlen : p.length > 4
    · simp only [if_pos hlen]
    · simp only [if_neg hlen]

theorem runOps_cache_bound (nfkc : String → String) (ops : List ValidationOp) :
    ∀ s : CacheState, s.usernameCache.length ≤ 1000 → s.passwordCache.length ≤ 1000 →
      (runOps nfkc s ops).usernameCache.length ≤ 1000 ∧
      (runOps nfkc s ops).passwordCache.length ≤ 1000 := by
  induction ops with
  | nil => exact fun s h1 h2 => ⟨h1, h2⟩
  | cons op rest ih =>
    intro s h1 h2
    cases op with
    | username u =>
      exact ih _ (validateUsername_cache_bound nfkc s u h1)
        ((validateUsername_passwordCache nfkc s u).symm ▸ h2)
    | password p =>
      exact ih _ ((validatePassword_usernameCache s p).symm ▸ h1)
        (validatePassword_cache_bound s p h2)

theorem validateUsername_evicts_oldest (nfkc : String → String) (s : CacheState) (u : String)
    (hu : s.usernameCache.lookup u = none) (hl : u.length > 2)
    (hlen : s.usernameCache.length = 1000) :
    (validateUsername nfkc s u).2.usernameCache =
      s.usernameCache.tail ++ [(u, computeUsernameValidation nfkc u)] := by
  simp only [validateUsername, hu, if_pos hl]
  have hb : (s.usernameCache ++ [(u, computeUsernameValidation nfkc u)]).length > 1000 := by
    simp [List.length_append, hlen]
  simp only [if_pos hb]
  cases hc : s.usernameCache with
  | nil =>
    rw [hc] at hlen
    simp at hlen
  | cons kv t =>
    rfl

/-- C6: starting from empty caches, any sequence of _validate_username
and _validate_password calls leaves each cache with at most 1000
entries; and on a cache miss for a cacheable username when the cache
already holds 1000 entries, the oldest-inserted entry is evicted and the
new entry appended. -/
theorem cache_bounded :
    (∀ (nfkc : String → String) (ops : List ValidationOp),
        (runOps nfkc initCaches ops).usernameCache.length ≤ 1000 ∧
        (runOps nfkc initCaches ops).passwordCache.length ≤ 1000) ∧
    (∀ (nfkc : String → String) (s : CacheState) (u : String),
        s.usernameCache.lookup u = none → u.length > 2 →
        s.usernameCache.length = 1000 →
        (validateUsername nfkc s u).2.usernameCache =
          s.usernameCache.tail ++ [(u, computeUsernameValidation nfkc u)]) :=
  ⟨fun nfkc ops =>
      runOps_cache_bound nfkc ops initCaches (by decide) (by decide),
    fun nfkc s u hu hl hlen => validateUsername_evicts_oldest nfkc s u hu hl hlen⟩

/-- A full username cache used to exercise the eviction branch. -/
def witnessCache : List (String × ValidationState) :=
  List.replicate 1000 ("aaa", ⟨true, ""⟩)

theorem witnessCache_lookup_none :
    ∀ n : Nat, (List.replicate n ("aaa", (⟨true, ""⟩ : ValidationState))).lookup "bbb" = none := by
  intro n
  induction n with
  | zero => rfl
  | succ k ih =>
    rw [List.replicate_succ]
    simp only [List.lookup_cons, show (("bbb" == "aaa") = false) from by decide]
    exact ih

/-- Witness for C6 on a concrete full cache. -/
theorem cache_bounded_witness :
    (witnessCache.lookup "bbb" = none) ∧ (("bbb" : String).length > 2) ∧
    (witnessCache.length = 1000) ∧
    ((validateUsername nfkcAscii ⟨witnessCache, []⟩ "bbb").2.usernameCache =
      witnessCache.tail ++ [("bbb", computeUsernameValidation nfkcAscii "bbb")]) := by
  have h1 : witnessCache.lookup "bbb" = none := witnessCache_lookup_none 1000
  have h2 : ("bbb" : String).length > 2 := by decide
  have h3 : witnessCache.length = 1000 := List.length_replicate 1000 _
  exact ⟨h1, h2, h3, cache_bounded.2 nfkcAscii ⟨witnessCache, []⟩ "bbb" h1 h2 h3⟩

/-! ### C10: caching never changes a validation result -/

/-- Every cached entry equals the fresh computation for its key. -/
def cacheCoherent (nfkc : String → String) (s : CacheState) : Prop :=
  (∀ k r, (k, r) ∈ s.usernameCache → r = computeUsernameValidation nfkc k) ∧
  (∀ k r, (k, r) ∈ s.passwordCache → r = computePasswordValidation k)

theorem lookup_mem {α : Type} (u : String) (r : α) :
    ∀ l : List (String × α), l.lookup u = some r → ∃ k, (k, r) ∈ l ∧ u = k := by
  intro l
  induction l with
  | nil =>
    intro h
    cases h
  | cons kv t ih =>
    obtain ⟨k, v⟩ := kv
    intro h
    cases hk : (u == k) with
    | true =>
      have hv : v = r := by simpa [List.lookup_cons, hk] using h
      exact ⟨k, by simp [hv], eq_of_beq hk⟩
    | false =>
      obtain ⟨k2, hm, he⟩ := ih (by simpa [List.lookup_cons, hk] using h)
      exact ⟨k2, List.mem_cons_of_mem _ hm, he⟩

theorem mem_insert_cache {α : Type} {k u : String} {r x : α} {l : List (String × α)}
    (hm : (k, r) ∈ (if (l ++ [(u, x)]).length > 1000 then (l ++ [(u, x)]).tail
      else (l ++ [(u, x)]))) :
    (k, r) ∈ l ∨ ((k, r) = (u, x)) := by
  have hm2 : (k, r) ∈ l ++ [(u, x)] := by
    by_cases hb : (l ++ [(u, x)]).length > 1000
    · rw [if_pos hb] at hm
      exact List.mem_of_mem_tail hm
    · rw [if_neg hb] at hm
      exact hm
  rcases List.mem_append.mp hm2 with h | h
  · exact Or.inl h
  · exact Or.inr (by simpa using h)

theorem validateUsername_coherent (nfkc : String → String) (s : CacheState) (u : String)
    (h : cacheCoherent nfkc s) : cacheCoherent nfkc (validateUsername nfkc s u).2 := by
  obtain ⟨h1, h2⟩ := h
  simp only [validateUsername]
  cases hl : s.usernameCache.lookup u with
  | some r =>
    simp only [hl]
    exact ⟨h1, h2⟩
  | none =>
    simp only [hl]
    by_cases hlen : u.length > 2
    · simp only [if_pos hlen]
      refine ⟨?_, h2⟩
      intro k r hm
      rcases mem_insert_cache hm with hold | hnew
      · exact h1 k r hold
      · have hk : k = u := congrArg Prod.fst hnew
        have hr : r = computeUsernameValidation nfkc u := congrArg Prod.snd hnew
        rw [hr, hk]
    · simp only [if_neg hlen]
      exact ⟨h1, h2⟩

theorem validatePassword_coherent (nfkc : String → String) (s : CacheState) (p : String)
    (h : cacheCoherent nfkc s) : cacheCoherent nfkc (validatePassword s p).2 := by
  obtain ⟨h1, h2⟩ := h
  simp only [validatePassword]
  cases hl : s.passwordCache.lookup p with
  | some r =>
    simp only [hl]
    exact ⟨h1, h2⟩
  | none =>
    simp only [hl]
    by_cases hlen : p.length > 4
    · simp only [if_pos hlen]
      refine ⟨h1, ?_⟩
      intro k r hm
      rcases mem_insert_cache hm with hold | hnew
      · exact h2 k r hold
      · have hk : k = p := congrArg Prod.fst hnew
        have hr : r = computePasswordValidation p := congrArg Prod.snd hnew
        rw [hr, hk]
    · simp only [if_neg hlen]
      exact ⟨h1, h2⟩

theorem runOps_coherent (nfkc : String → String) (ops : List ValidationOp) :
    ∀ s : CacheState, cacheCoherent nfkc s → cacheCoherent nfkc (runOps nfkc s ops) := by
  induction ops with
  | nil => exact fun s h => h
  | cons op rest ih =>
    intro s h
    cases op with
    | username u => exact ih _ (validateUsername_coherent nfkc s u h)
    | password p => exact ih _ (validatePassword_coherent nfkc s p h)

/-- C10: in every cache state reachable from the empty caches,
_validate_username returns exactly the result of UsernameValidator.validate
and _validate_password returns exactly the result computed from the
password checks, whether served from cache or freshly computed. -/
theorem caching_transparent (nfkc : String → String) (ops : List ValidationOp)
    (u p : String) :
    (validateUsername nfkc (runOps nfkc initCaches ops) u).1 =
      computeUsernameValidation nfkc u ∧
    (validatePassword (runOps nfkc initCaches ops) p).1 = computePasswordValidation p := by
  obtain ⟨h1, h2⟩ := runOps_coherent nfkc ops initCaches
    ⟨fun k r h => absurd h (List.not_mem_nil _), fun k r h => absurd h (List.not_mem_nil _)⟩
  constructor
  · simp only [validateUsername]
    cases hl : (runOps nfkc initCaches ops).usernameCache.lookup u with
    | some r =>
      simp only [hl]
      obtain ⟨k, hm, he⟩ := lookup_mem u r _ hl
      subst he
      exact h1 _ _ hm
    | none =>
      simp only [hl]
      split
      · rfl
      · rfl
  · simp only [validatePassword]
    cases hl : (runOps nfkc initCaches ops).passwordCache.lookup p with
    | some r =>
      simp only [hl]
      obtain ⟨k, hm, he⟩ := lookup_mem p r _ hl
      subst he
      exact h2 _ _ hm
    | none =>
      simp only [hl]
      split
      · rfl
      · rfl

/-! ### C8: signup ordering and the taken-username short-circuit -/

theorem signup_steps_initial_segment (nfkc : String → String) (b : SignupBackend)
    (u : String) (s : AuthState) :
    ∃ n, (signup nfkc b u s).steps = signupStepOrder.take n := by
  simp only [signup]
  split
  · exact ⟨1, rfl⟩
  · split
    · exact ⟨2, rfl⟩
    · exact ⟨2, rfl⟩
    · split
      · split
        · exact ⟨3, rfl⟩
        · exact ⟨3, rfl⟩
        · split
          · exact ⟨5, rfl⟩
          · exact ⟨5, rfl⟩
      · exact ⟨2, rfl⟩

/-- C8: when the username passes local validation but the availability
query returns a nonempty row set, _signup ends with error "Username
already taken" without ever reaching the identity-creation call; and
every _signup run performs an initial segment of the fixed order
local-validation, availability query, sign-up, profile insert,
auto-sign-in, so the availability check always precedes identity
creation and local validation precedes the availability check. -/
theorem signup_taken_short_circuit (nfkc : String → String) (b : SignupBackend)
    (username : String) (s : AuthState) (rows : List String)
    (hv : (validate nfkc username).1 = true)
    (ha : b.availability = Except.ok rows) (hr : rows ≠ []) :
    ((signup nfkc b username s).state.error = some "Username already taken" ∧
      (signup nfkc b username s).steps = [SignupStep.localValidate, SignupStep.profilesQuery] ∧
      SignupStep.signUp ∉ (signup nfkc b username s).steps) ∧
    ∀ (nfkc2 : String → String) (b2 : SignupBackend) (u2 : String) (s2 : AuthState),
      ∃ n, (signup nfkc2 b2 u2 s2).steps = signupStepOrder.take n := by
  have hv2 : (!(validate nfkc username).1) = false := by rw [hv]; rfl
  refine ⟨?_, fun nfkc2 b2 u2 s2 => signup_steps_initial_segment nfkc2 b2 u2 s2⟩
  simp only [signup, hv2, Bool.false_eq_true, if_false, ha, if_neg hr]
  refine ⟨by decide, by decide, by decide⟩

/-- Witness for C8: a concrete valid username that the profile store
already contains. -/
theorem signup_taken_short_circuit_witness :
    ((validate nfkcAscii "gooduser").1 = true) ∧
    ((⟨Except.ok ["gooduser"], Except.ok none, Except.ok none, Except.ok ()⟩ :
        SignupBackend).availability = Except.ok ["gooduser"]) ∧
    (["gooduser"] ≠ ([] : List String)) ∧
    (((signup nfkcAscii ⟨Except.ok ["gooduser"], Except.ok none, Except.ok none, Except.ok ()⟩
        "gooduser" ⟨none, false, none⟩).state.error = some "Username already taken" ∧
      (signup nfkcAscii ⟨Except.ok ["gooduser"], Except.ok none, Except.ok none, Except.ok ()⟩
        "gooduser" ⟨none, false, none⟩).steps =
          [SignupStep.localValidate, SignupStep.profilesQuery] ∧
      SignupStep.signUp ∉ (signup nfkcAscii
        ⟨Except.ok ["gooduser"], Except.ok none, Except.ok none, Except.ok ()⟩
        "gooduser" ⟨none, false, none⟩).steps) ∧
    ∀ (nfkc2 : String → String) (b2 : SignupBackend) (u2 : String) (s2 : AuthState),
      ∃ n, (signup nfkc2 b2 u2 s2).steps = signupStepOrder.take n) :=
  ⟨by decide, rfl, by decide,
    signup_taken_short_circuit nfkcAscii
      ⟨Except.ok ["gooduser"], Except.ok none, Except.ok none, Except.ok ()⟩
      "gooduser" ⟨none, false, none⟩ ["gooduser"] (by decide) rfl (by decide)⟩

/-! ### C1: the weak-password handler is shadowed -/

/-- A weak-password requirement message as the backend reports it. -/
def weakMsg : String :=
  "Password should be at least 8 characters. Password should contain at least one number"

/-- C1: when the identity-creation call fails with a weak-password error,
the inner generic exception handler runs instead of the dedicated
weak-password handler, so _signup sets the generic message rather than
the bulleted requirement list that _format_password_requirements (and the
claim) prescribe. -/
theorem signup_weak_password_generic_error :
    ((signup nfkcAscii
        ⟨Except.ok [], Except.error (AuthExc.weakPassword weakMsg), Except.ok (some ()),
          Except.ok ()⟩
        "gooduser" ⟨none, false, none⟩).state.error =
      some "An error occurred. Please try again.") ∧
    formatPasswordRequirements weakMsg =
      "Password requirements:\n• Password should be at least 8 characters\n• Password should contain at least one number" := by
  constructor
  · decide
  · decide

end SolverSpace
